import Mathlib

/-!
Verification of the scope-tracking engine and classifiers of the
actions-on-google linter.

The JavaScript sources are embedded shallowly:

* `Scope` mirrors `lib/scope/scope.js` (class `Scope`): one stack frame with
  `event`, `metadata`, `lastViolatingNode`, `hasReturnStatement`.  The
  metadata type is a parameter: the counting tracker uses `Int` (JS numbers
  used as integer counters), the presence tracker uses `Bool`.
* The frame stack is a `List (Scope α)` whose HEAD is the TOP of the stack
  (the JS code pushes/pops at the end of an array and reads `last`).
* Throwing JS code is embedded in `Except String`: a thrown `Error` or a
  `TypeError` from dereferencing `undefined` becomes `Except.error`.
* External queries answered by eslint (node fields such as `alternate`,
  ancestor chains, lexical-scope resolution) become explicit parameters of
  the embedded functions, holding the value the query returns.
-/

/-- One stack frame, from `lib/scope/scope.js`.  `lastViolatingNode` holds a
node reference; nodes are represented by numeric identifiers. -/
structure Scope (α : Type) where
  event : String
  metadata : α
  lastViolatingNode : Option Nat
  hasReturnStatement : Bool
deriving Repr, DecidableEq

/-- `startsList s pat` is true when `pat` is an initial segment of `s`. -/
def startsList : List Char → List Char → Bool
  | _, [] => true
  | [], _ :: _ => false
  | a :: as, b :: bs => a = b && startsList as bs

/-- `subList s pat` is true when `pat` occurs contiguously inside `s`. -/
def subList : List Char → List Char → Bool
  | s, pat =>
    startsList s pat ||
      (match s with
       | [] => false
       | _ :: as => subList as pat)

/-- Embeds the JS `String.prototype.includes` substring test used on scope
event labels (for example `event.includes ("IfStatement")`). -/
def includesSub (s pat : String) : Bool :=
  subList s.data pat.data

/-- State of a `CountScopeManager` (`lib/scope/count-scope-manager.js`):
the frame stack plus the number of times the `reporterFn` callback was
invoked (the callback itself is external to the engine; we record its
invocations). -/
structure CState where
  stack : List (Scope Int)
  reports : Nat
deriving Repr, DecidableEq

namespace CountScopeManager

/-- The sentinel base frame pushed by the `ScopeManager` constructor via
`CountScopeManager._createScopeObject`, which defaults `metadata` to `0`,
`lastViolatingNode` to `null` and `hasReturnStatement` to `false`. -/
def sentinelScope : Scope Int :=
  ⟨"Sentinel", 0, none, false⟩

/-- `CountScopeManager._createScopeObject` for a freshly entered scope:
only the event label is supplied, all other fields are defaulted. -/
def createScopeObject (event : String) : Scope Int :=
  ⟨event, 0, none, false⟩

/-- `ScopeManager._exitScope`: runs `_invariant` (error when the stack is
empty or the top frame is the sentinel) and then pops the top frame. -/
def exitScope {α : Type} : List (Scope α) → Except String (List (Scope α))
  | [] => .error "undefined is about to be popped"
  | top :: rest =>
    if top.event = "Sentinel" then .error "Sentinel is about to be popped"
    else .ok rest

/-- `CountScopeManager._undoChangesIfThereIsReturnStatement`, acting on the
current (parent) scope.  In the source `ifScope` is always defined, so the
guard `ifScope ? ifScope.metadata : 0` always takes the first branch. -/
def undoChangesIfThereIsReturnStatement (ifScope : Scope Int)
    (elseScope : Option (Scope Int)) (initialVal : Int)
    (parent : Scope Int) : Scope Int :=
  if ifScope.hasReturnStatement &&
      (match elseScope with
       | some e => e.hasReturnStatement
       | none => false) then
    { parent with metadata := initialVal }
  else if ifScope.hasReturnStatement then
    let ifScopeVal := ifScope.metadata
    let elseScopeVal :=
      match elseScope with
      | some e => if ¬ e.hasReturnStatement then e.metadata else 0
      | none => 0
    { parent with metadata := parent.metadata - ifScopeVal + elseScopeVal }
  else if (match elseScope with
           | some e => e.hasReturnStatement
           | none => false) then
    let ifScopeVal := if ¬ ifScope.hasReturnStatement then ifScope.metadata else 0
    let elseScopeVal :=
      match elseScope with
      | some e => e.metadata
      | none => 0
    { parent with metadata := parent.metadata - elseScopeVal + ifScopeVal }
  else parent

/-- Steps 1-3 of `CountScopeManager._handleIfExit` after the consequent
frame (`ifScope`) has been identified: pop it, merge into the parent, report
when the value changed, then apply the return-statement undo.  `elseScope`
is the alternate frame popped by `_getElseScopeIfAny` (if any), `chained`
is the answer of `_isInsideIfElseStatement` (an ancestor query answered by
eslint), `node` identifies the `ifStatement` node. -/
def ifExitCore (elseScope : Option (Scope Int)) (chained : Bool) (node : Nat)
    (reports : Nat) : List (Scope Int) → Except String CState
  | [] => .error "undefined is about to be popped"
  | ifScope :: st1 =>
    -- `this._exitScope()` on the consequent frame
    if ifScope.event = "Sentinel" then .error "Sentinel is about to be popped"
    else
      match st1 with
      | [] => .error "TypeError: cannot read metadata of undefined"
      | parent :: rest =>
        let initialVal := parent.metadata
        let branchMax : Int :=
          max ifScope.metadata
            (match elseScope with
             | some e => e.metadata
             | none => 0)
        let newVal : Int :=
          if chained then max initialVal branchMax else initialVal + branchMax
        -- step 2: report when `initialVal - currentScope().metadata !== 0`
        let changed : Bool := initialVal - newVal ≠ 0
        let parent2 : Scope Int :=
          if changed then
            { parent with metadata := newVal, lastViolatingNode := some node }
          else
            { parent with metadata := newVal }
        let reports2 := if changed then reports + 1 else reports
        -- step 3: undo the merge for returning branches
        let parent3 :=
          undoChangesIfThereIsReturnStatement ifScope elseScope initialVal parent2
        .ok ⟨parent3 :: rest, reports2⟩

/-- `CountScopeManager._handleIfExit`.  `hasAlternate` is the truthiness of
`ifStatement.alternate`, `chained` the result of
`_isInsideIfElseStatement(ifStatement)` and `node` the if-statement node.
`_getElseScopeIfAny` is inlined: under the initial guard the current scope
already satisfies `event.includes ("IfStatement")`, so it pops the top
frame as the alternate scope exactly when `hasAlternate` holds. -/
def handleIfExit (hasAlternate chained : Bool) (node : Nat) (s : CState) :
    Except String CState :=
  match s.stack with
  | [] => .error "TypeError: cannot read event of undefined"
  | top :: rest0 =>
    if includesSub top.event "IfStatement" then
      if hasAlternate then
        -- `_getElseScopeIfAny` pops the alternate frame via `_exitScope`
        if top.event = "Sentinel" then .error "Sentinel is about to be popped"
        else ifExitCore (some top) chained node s.reports rest0
      else ifExitCore none chained node s.reports (top :: rest0)
    else
      -- the rule did not push a frame for this if-statement: silently skip
      .ok s

/-- `CountScopeManager._handleCatchExit`: verify and pop the catch frame,
verify and pop the try frame, fold `max` into the parent, and always invoke
the reporter callback. -/
def handleCatchExit (s : CState) : Except String CState :=
  match s.stack with
  | [] => .error "TypeError: cannot read event of undefined"
  | catchScope :: st1 =>
    if ¬ includesSub catchScope.event "CatchClause" then
      .error "Expected Catch to be on top of stack"
    else if catchScope.event = "Sentinel" then
      .error "Sentinel is about to be popped"
    else
      match st1 with
      | [] => .error "TypeError: cannot read event of undefined"
      | tryScope :: st2 =>
        if ¬ includesSub tryScope.event "TryStatement" then
          .error "Expected TryStatement to be on top of stack"
        else if tryScope.event = "Sentinel" then
          .error "Sentinel is about to be popped"
        else
          match st2 with
          | [] => .error "TypeError: cannot read metadata of undefined"
          | parent :: rest =>
            .ok ⟨{ parent with
                    metadata := max parent.metadata
                      (max catchScope.metadata tryScope.metadata) } :: rest,
                 s.reports + 1⟩

end CountScopeManager

/-- One traversal event fed to `CountScopeManager.account` by the
`at-most-two-simple-responses` rule handlers.  The entry handlers pass the
labels shown in the rule; `ReturnStatement` is the return marker; exit
events carry the eslint-answered data the dispatch needs (`node.type`
selects the branch of `_dispatchExit`; for an if-statement exit,
`hasAlternate` is the truthiness of `node.alternate` and `chained` the
answer of `_isInsideIfElseStatement`).  `tick` is the rule's
`CallExpression` handler detecting one certain simple response: it bumps
`metadata` and stores the violating node on the current scope. -/
inductive CEvent where
  | enter (label : String)
  | retStmt
  | tick (node : Nat)
  | exitIf (hasAlternate chained : Bool) (node : Nat)
  | exitCatch
  | exitOther
deriving Repr, DecidableEq

namespace CountScopeManager

/-- `CountScopeManager.account`: exit events dispatch on the node type,
`ReturnStatement` marks the current scope, anything else enters a scope.
The `tick` case is the rule's `CallExpression` handler mutating the current
scope directly (`metadata + 1`, `lastViolatingNode`); dereferencing the
current scope of an empty stack would throw in JS. -/
def account (s : CState) : CEvent → Except String CState
  | .enter label => .ok ⟨createScopeObject label :: s.stack, s.reports⟩
  | .retStmt =>
    match s.stack with
    | [] => .error "TypeError: cannot assign to undefined"
    | top :: rest =>
      .ok ⟨{ top with hasReturnStatement := true } :: rest, s.reports⟩
  | .tick node =>
    match s.stack with
    | [] => .error "TypeError: cannot assign to undefined"
    | top :: rest =>
      .ok ⟨⟨top.event, top.metadata + 1, some node,
            top.hasReturnStatement⟩ :: rest, s.reports⟩
  | .exitIf hasAlternate chained node => handleIfExit hasAlternate chained node s
  | .exitCatch => handleCatchExit s
  | .exitOther =>
    match s.stack with
    | [] => .error "undefined is about to be popped"
    | top :: rest =>
      if top.event = "Sentinel" then .error "Sentinel is about to be popped"
      else .ok ⟨rest, s.reports⟩

/-- Feeds a list of traversal events to the counting tracker in order,
stopping at the first thrown error. -/
def run (s : CState) : List CEvent → Except String CState
  | [] => .ok s
  | e :: rest =>
    match account s e with
    | .error msg => .error msg
    | .ok s' => run s' rest

end CountScopeManager

/-- Function-body labels the `at-most-two-simple-responses` rule passes to
`account` for function-like entry events (with `, Intent` appended when
`isNodeIntentHandler` recognizes the enclosing call). -/
inductive FnLabel where
  | funcExpr
  | funcExprIntent
  | arrowExpr
  | arrowExprIntent
  | methodDef
  | funcDecl
deriving Repr, DecidableEq

/-- The label string the rule passes for each function-like entry. -/
def FnLabel.eventString : FnLabel → String
  | .funcExpr => "FunctionExpression"
  | .funcExprIntent => "FunctionExpression, Intent"
  | .arrowExpr => "ArrowFunctionExpression"
  | .arrowExprIntent => "ArrowFunctionExpression, Intent"
  | .methodDef => "MethodDefinition"
  | .funcDecl => "FunctionDeclaration"

mutual

/-- Abstract syntax of a well-formed program region, as far as the
`at-most-two-simple-responses` rule wiring observes it: qualifying calls,
return statements, function bodies, conditionals (with an optional
alternate that may itself chain) and try/catch statements. -/
inductive Prog where
  | skip
  | seq (a b : Prog)
  | call (node : Nat)
  | ret
  | func (label : FnLabel) (body : Prog)
  | ifStmt (node : Nat) (cons : Prog) (alt : AltPart)
  | tryCatch (tryBody catchBody : Prog)

/-- The alternate of a conditional: absent, a plain else block, or an
else-if chain link. -/
inductive AltPart where
  | noAlt
  | block (body : Prog)
  | elif (node : Nat) (cons : Prog) (alt : AltPart)

end

/-- Whether the conditional has an alternate (the truthiness of
`ifStatement.alternate`). -/
def AltPart.isPresent : AltPart → Bool
  | .noAlt => false
  | .block _ => true
  | .elif _ _ _ => true

mutual

/-- The traversal event sequence eslint delivers for a region, as wired by
the rule handlers: branch frames are pushed by the `IfStatement >
BlockStatement` / `IfStatement > IfStatement` child-entry handlers and
popped only at `IfStatement:exit`; a try/catch pushes `TryStatement` and
`CatchClause` frames popped at `CatchClause:exit`.  The `chained` flag of
an if-exit is true exactly for the else-if links (where the enclosing
conditional's `alternate` is this node). -/
def progEvents : Prog → List CEvent
  | .skip => []
  | .seq a b => progEvents a ++ progEvents b
  | .call n => [.tick n]
  | .ret => [.retStmt]
  | .func l body =>
    .enter l.eventString :: (progEvents body ++ [.exitOther])
  | .ifStmt n cons alt =>
    .enter "IfStatement > BlockStatement" ::
      (progEvents cons ++ altEvents alt ++ [.exitIf alt.isPresent false n])
  | .tryCatch t c =>
    .enter "TryStatement" ::
      (progEvents t ++ .enter "CatchClause" :: (progEvents c ++ [.exitCatch]))

/-- Events of the alternate part of a conditional.  An else-if link pushes
the `IfStatement > IfStatement` frame for the nested conditional and then
traverses that conditional, whose own exit event carries `chained = true`. -/
def altEvents : AltPart → List CEvent
  | .noAlt => []
  | .block body => .enter "IfStatement > BlockStatement" :: progEvents body
  | .elif n cons alt =>
    .enter "IfStatement > IfStatement" ::
      .enter "IfStatement > BlockStatement" ::
        (progEvents cons ++ altEvents alt ++ [.exitIf alt.isPresent true n])

end


namespace PresenceScopeManager

/-- Presence merge on conditional exit, from
`PresenceScopeManager._handleIfExit` after `_getElseScopeIfAny` supplied the
alternate frame and the consequent frame was popped.  The source expression
is `this.currentScope().metadata || (ifScope.metadata && elseScope ?
elseScope.metadata : false)`: by JS precedence the ternary condition is
`ifScope.metadata && elseScope`, whose truthiness requires both the
consequent metadata and the existence of the alternate frame. -/
def mergedPresence (parentMeta ifMeta : Bool) (elseScope : Option (Scope Bool)) :
    Bool :=
  parentMeta ||
    (if ifMeta && elseScope.isSome then
      match elseScope with
      | some e => e.metadata
      | none => false
    else false)

/-- `PresenceScopeManager._handleIfExit` acting on the frame stack (the
presence tracker's reporter is only invoked on handler exits, so no report
bookkeeping is needed here).  `hasAlternate` is the truthiness of
`ifStatement.alternate`; `_getElseScopeIfAny` is inlined as in the counting
tracker. -/
def handleIfExit (hasAlternate : Bool) (stack : List (Scope Bool)) :
    Except String (List (Scope Bool)) :=
  match stack with
  | [] => .error "TypeError: cannot read event of undefined"
  | top :: rest0 =>
    if includesSub top.event "IfStatement" then
      if hasAlternate then
        if top.event = "Sentinel" then .error "Sentinel is about to be popped"
        else ifExitCore (some top) rest0
      else ifExitCore none (top :: rest0)
    else
      -- the rule did not push a frame for this if-statement: silently skip
      .ok stack
where
  /-- Popping the consequent frame and folding into the parent. -/
  ifExitCore (elseScope : Option (Scope Bool)) :
      List (Scope Bool) → Except String (List (Scope Bool))
  | [] => .error "undefined is about to be popped"
  | ifScope :: st1 =>
    if ifScope.event = "Sentinel" then .error "Sentinel is about to be popped"
    else
      match st1 with
      | [] => .error "TypeError: cannot read metadata of undefined"
      | parent :: rest =>
        .ok ({ parent with
               metadata := mergedPresence parent.metadata ifScope.metadata
                 elseScope } :: rest)

end PresenceScopeManager

/-- Classifier verdict `{certain, result}` from
`Classifier._createResponse`. -/
structure ClassifierResponse where
  certain : Bool
  result : Bool
deriving Repr, DecidableEq

/-- The slice of the eslint AST inspected by
`SimpleResponseClassifier._isSimpleResponse` and `_isString`.  Variable
references are resolved externally by `findVariableNodeValue` over the
lexical scope chain; the embedding records the outcome of that lookup in
the identifier node itself: `identifierRes v` is an identifier whose
nearest binding has initializer `v`, `identifierUnres` one for which no
binding value was found. -/
inductive JSNode where
  | callExpr
  | identifierRes (v : JSNode)
  | identifierUnres
  | memberExpr
  | spreadElem
  | newExpr (calleeName : String)
  | literal
  | binaryExpr (left right : JSNode)
  | templateLiteral
  | objectExpr
deriving Repr, DecidableEq

namespace SimpleResponseClassifier

/-- `node.type === 'Literal'` for the embedded AST. -/
def isLiteralType : JSNode → Bool
  | .literal => true
  | _ => false

/-- `node.type === 'TemplateLiteral'` for the embedded AST. -/
def isTemplateType : JSNode → Bool
  | .templateLiteral => true
  | _ => false

/-- `SimpleResponseClassifier._isString`: a literal, a binary expression
one of whose operands is a literal or template literal, or a template
literal. -/
def isString (node : JSNode) : Bool :=
  isLiteralType node ||
    (match node with
     | .binaryExpr l r =>
       isLiteralType l || isLiteralType r || isTemplateType l || isTemplateType r
     | _ => false) ||
    isTemplateType node

/-- `SimpleResponseClassifier._isSimpleResponse` (which `classify`
returns directly): call expressions, member expressions and spreads are
uncertain; identifiers classify their resolved variable value when
`findVariableNodeValue` finds one and are uncertain otherwise; a `new`
expression is certain, positive only for `SimpleResponse`; every other
node is certain with result `_isString(node)`. -/
def classify : JSNode → ClassifierResponse
  | .callExpr => ⟨false, false⟩
  | .identifierRes v => classify v
  | .identifierUnres => ⟨false, false⟩
  | .memberExpr => ⟨false, false⟩
  | .spreadElem => ⟨false, false⟩
  | .newExpr calleeName =>
    if calleeName = "SimpleResponse" then ⟨true, true⟩ else ⟨true, false⟩
  | .literal => ⟨true, isString .literal⟩
  | .binaryExpr l r => ⟨true, isString (.binaryExpr l r)⟩
  | .templateLiteral => ⟨true, isString .templateLiteral⟩
  | .objectExpr => ⟨true, isString .objectExpr⟩

/-- The categories the claim designates as the exact uncertain set,
stated from the words of the claim (for comparison with `classify`): call
expressions, member accesses, spread elements, and identifiers whose
binding cannot be resolved. -/
def claimedUncertain : JSNode → Bool
  | .callExpr => true
  | .memberExpr => true
  | .spreadElem => true
  | .identifierUnres => true
  | _ => false

/-- The uncertain set as the code realizes it: the claimed categories,
closed under following resolved identifier bindings. -/
def uncertainResolved : JSNode → Bool
  | .callExpr => true
  | .memberExpr => true
  | .spreadElem => true
  | .identifierUnres => true
  | .identifierRes v => uncertainResolved v
  | _ => false

end SimpleResponseClassifier

/-- The eslint node types distinguished by `Classifier.isNodeIntentHandler`
(everything else is `OtherType`). -/
inductive NType where
  | CallExpression
  | MemberExpression
  | Identifier
  | Literal
  | OtherType
deriving Repr, DecidableEq

/-- The fields of `findVariableNodeValue(scope, object)`'s answer that
`isNodeIntentHandler` inspects: the resolved node's type and, when it is a
call expression, its callee name. -/
structure ResolvedVal where
  type : NType
  calleeName : String
deriving Repr, DecidableEq

/-- The slice of a candidate handler-registration call node inspected by
`Classifier.isNodeIntentHandler`: the node type, the callee type, the type
of the callee's receiver object, what `findVariableNodeValue` resolves that
receiver to when it is an identifier (the lexical-scope walk is external),
the callee's property name, and the types of the argument nodes. -/
structure IntentCallNode where
  type : NType
  calleeType : NType
  calleeObjectType : NType
  calleeObjectResolved : Option ResolvedVal
  calleePropertyName : String
  argTypes : List NType
deriving Repr, DecidableEq

namespace Classifier

/-- `Classifier.isNodeIntentHandler`.  `none` embeds a missing node
(`!node`).  `findVariableNodeValue` throws when handed a non-identifier
node, which makes this predicate throw rather than answer for member
expressions over non-identifier receivers (unless an earlier check already
returned false). -/
def isNodeIntentHandler : Option IntentCallNode → Except String Bool
  | none => .ok false
  | some node =>
    if node.type ≠ .CallExpression then .ok false
    else if node.calleeType ≠ .MemberExpression then .ok false
    else if (match node.argTypes.getLast? with
             | some t => t == NType.Literal
             | none => false) then .ok false
    else if node.calleeObjectType ≠ .Identifier then
      .error "Expected Identifier, but got another node type"
    else
      let isActionsApp : Bool :=
        match node.calleeObjectResolved with
        | some v =>
          v.type == NType.CallExpression &&
            (v.calleeName == "dialogflow" || v.calleeName == "actionssdk")
        | none => false
      if isActionsApp &&
          (node.calleePropertyName == "intent" ||
            node.calleePropertyName == "fallback") then
        .ok (!(node.argTypes.length == 2 &&
               node.argTypes.get? 1 == some NType.Identifier))
      else .ok false

end Classifier

/-! Helper lemmas shared by the claim theorems. -/

/-- An event label containing a pattern that the literal label `Sentinel`
does not contain cannot itself be `Sentinel`. -/
theorem ne_sentinel_of_includes {ev pat : String}
    (h : includesSub ev pat = true)
    (h0 : includesSub "Sentinel" pat = false) : ev ≠ "Sentinel" := by
  intro heq
  rw [heq, h0] at h
  exact Bool.false_ne_true h

/-- Labels containing `IfStatement` are not the sentinel label. -/
theorem includes_ifst_ne_sentinel {ev : String}
    (h : includesSub ev "IfStatement" = true) : ev ≠ "Sentinel" :=
  ne_sentinel_of_includes h (by decide)

/-- Labels containing `CatchClause` are not the sentinel label. -/
theorem includes_catch_ne_sentinel {ev : String}
    (h : includesSub ev "CatchClause" = true) : ev ≠ "Sentinel" :=
  ne_sentinel_of_includes h (by decide)

/-- Labels containing `TryStatement` are not the sentinel label. -/
theorem includes_try_ne_sentinel {ev : String}
    (h : includesSub ev "TryStatement" = true) : ev ≠ "Sentinel" :=
  ne_sentinel_of_includes h (by decide)

namespace CountScopeManager

/-- Claim C1: on exit of a standalone conditional (not the alternate of an
enclosing conditional, so `_isInsideIfElseStatement` answers false), with
consequent count `c`, alternate count `e` (`0` when no else branch exists)
and no return statement in either branch, the parent metadata after the
whole exit is its pre-merge value plus `max c e`.  The first conjunct is
the if/else case (alternate frame `eS` on top of consequent frame `cS`),
the second the else-less case. -/
theorem c1_standalone_merge_adds_branch_max
    (eS cS par : Scope Int) (rest : List (Scope Int)) (r n : Nat)
    (hTop : includesSub eS.event "IfStatement" = true)
    (hCs : cS.event ≠ "Sentinel")
    (hEr : eS.hasReturnStatement = false)
    (hCr : cS.hasReturnStatement = false) :
    (∃ par' r', handleIfExit true false n ⟨eS :: cS :: par :: rest, r⟩ =
        .ok ⟨par' :: rest, r'⟩ ∧
      par'.metadata = par.metadata + max cS.metadata eS.metadata)
    ∧ (includesSub cS.event "IfStatement" = true →
      ∃ par' r', handleIfExit false false n ⟨cS :: par :: rest, r⟩ =
          .ok ⟨par' :: rest, r'⟩ ∧
        par'.metadata = par.metadata + max cS.metadata 0) := by
  have hS : eS.event ≠ "Sentinel" := includes_ifst_ne_sentinel hTop
  constructor
  · simp only [handleIfExit, hTop, if_true, hS, if_false, ifExitCore, hCs,
      ite_false, ite_true, undoChangesIfThereIsReturnStatement, hEr, hCr]
    simp only [Bool.false_and, Bool.false_eq_true, if_false]
    split
    · exact ⟨_, _, rfl, rfl⟩
    · exact ⟨_, _, rfl, rfl⟩
  · intro hTop2
    simp only [handleIfExit, hTop2, if_true, Bool.false_eq_true, if_false,
      ifExitCore, hCs, ite_false, ite_true,
      undoChangesIfThereIsReturnStatement, hCr]
    simp only [Bool.false_and, Bool.false_eq_true, if_false]
    split
    · exact ⟨_, _, rfl, rfl⟩
    · exact ⟨_, _, rfl, rfl⟩

/-- Witness for C1 at concrete frames (consequent count 1, alternate
count 2, parent count 5): the merged parent counts are `5 + max 1 2` and
`5 + max 1 0`. -/
theorem c1_witness :
    (∃ par' r', handleIfExit true false 7
        ⟨[⟨"IfStatement > BlockStatement", 2, none, false⟩,
          ⟨"IfStatement > BlockStatement", 1, none, false⟩,
          ⟨"Sentinel", 5, none, false⟩], 0⟩ = .ok ⟨par' :: [], r'⟩ ∧
      par'.metadata = 5 + max 1 2)
    ∧ (∃ par' r', handleIfExit false false 7
        ⟨[⟨"IfStatement > BlockStatement", 1, none, false⟩,
          ⟨"Sentinel", 5, none, false⟩], 0⟩ = .ok ⟨par' :: [], r'⟩ ∧
      par'.metadata = 5 + max 1 0) := by
  have h := c1_standalone_merge_adds_branch_max
    ⟨"IfStatement > BlockStatement", 2, none, false⟩
    ⟨"IfStatement > BlockStatement", 1, none, false⟩
    ⟨"Sentinel", 5, none, false⟩ [] 0 7 (by decide) (by decide) rfl rfl
  exact ⟨h.1, h.2 (by decide)⟩

/-- Claim C2: on exit of a conditional that is the alternate of an
enclosing conditional (`_isInsideIfElseStatement` answers true), with no
returns in the branches, the parent metadata after the whole exit is
`max (max p c) e` (`e = 0` without an else branch): branch counts are
never added to the pre-merge parent count. -/
theorem c2_chained_merge_takes_max
    (eS cS par : Scope Int) (rest : List (Scope Int)) (r n : Nat)
    (hTop : includesSub eS.event "IfStatement" = true)
    (hCs : cS.event ≠ "Sentinel")
    (hEr : eS.hasReturnStatement = false)
    (hCr : cS.hasReturnStatement = false) :
    (∃ par' r', handleIfExit true true n ⟨eS :: cS :: par :: rest, r⟩ =
        .ok ⟨par' :: rest, r'⟩ ∧
      par'.metadata = max par.metadata (max cS.metadata eS.metadata))
    ∧ (includesSub cS.event "IfStatement" = true →
      ∃ par' r', handleIfExit false true n ⟨cS :: par :: rest, r⟩ =
          .ok ⟨par' :: rest, r'⟩ ∧
        par'.metadata = max par.metadata (max cS.metadata 0)) := by
  have hS : eS.event ≠ "Sentinel" := includes_ifst_ne_sentinel hTop
  constructor
  · simp only [handleIfExit, hTop, if_true, hS, if_false, ifExitCore, hCs,
      ite_false, ite_true, undoChangesIfThereIsReturnStatement, hEr, hCr]
    simp only [Bool.false_and, Bool.false_eq_true, if_false]
    split
    · exact ⟨_, _, rfl, rfl⟩
    · exact ⟨_, _, rfl, rfl⟩
  · intro hTop2
    simp only [handleIfExit, hTop2, if_true, Bool.false_eq_true, if_false,
      ifExitCore, hCs, ite_false, ite_true,
      undoChangesIfThereIsReturnStatement, hCr]
    simp only [Bool.false_and, Bool.false_eq_true, if_false]
    split
    · exact ⟨_, _, rfl, rfl⟩
    · exact ⟨_, _, rfl, rfl⟩

/-- Witness for C2 at concrete frames (parent 5, consequent 3,
alternate 1): chained merges give `max 5 (max 3 1)` and `max 5 (max 3 0)`. -/
theorem c2_witness :
    (∃ par' r', handleIfExit true true 7
        ⟨[⟨"IfStatement > BlockStatement", 1, none, false⟩,
          ⟨"IfStatement > BlockStatement", 3, none, false⟩,
          ⟨"Sentinel", 5, none, false⟩], 0⟩ = .ok ⟨par' :: [], r'⟩ ∧
      par'.metadata = max 5 (max 3 1))
    ∧ (∃ par' r', handleIfExit false true 7
        ⟨[⟨"IfStatement > BlockStatement", 3, none, false⟩,
          ⟨"Sentinel", 5, none, false⟩], 0⟩ = .ok ⟨par' :: [], r'⟩ ∧
      par'.metadata = max 5 (max 3 0)) := by
  have h := c2_chained_merge_takes_max
    ⟨"IfStatement > BlockStatement", 1, none, false⟩
    ⟨"IfStatement > BlockStatement", 3, none, false⟩
    ⟨"Sentinel", 5, none, false⟩ [] 0 7 (by decide) (by decide) rfl rfl
  exact ⟨h.1, h.2 (by decide)⟩

end CountScopeManager

namespace CountScopeManager

/-- Claim C3, counterexample: standalone conditional, parent pre-merge
count 0, consequent count 1 with a return statement, alternate count 2
without one.  The claim predicts a propagated contribution of exactly the
alternate count (parent metadata `0 + 2`), but the code computes
`0 + max 1 2 - 1 + 2 = 3`. -/
theorem c3_counterexample :
    handleIfExit true false 7
        ⟨[⟨"IfStatement > BlockStatement", 2, none, false⟩,
          ⟨"IfStatement > BlockStatement", 1, none, true⟩,
          ⟨"Sentinel", 0, none, false⟩], 0⟩ =
      .ok ⟨[⟨"Sentinel", 3, some 7, false⟩], 1⟩ ∧ (3 : Int) ≠ 0 + 2 :=
  ⟨rfl, by decide⟩

/-- Claim C3 as amended: when both branches return, the merge is fully
undone (parent metadata restored).  When only the consequent returns, the
consequent count is subtracted from the merged value and the alternate
count (the alternate not having returned) is added back; the propagated
contribution equals exactly the alternate count in the standalone case
when the consequent count is at least the alternate count.  Symmetrically
when only the alternate returns. -/
theorem c3_return_undo
    (eS cS par : Scope Int) (rest : List (Scope Int)) (r n : Nat) (ch : Bool)
    (hTop : includesSub eS.event "IfStatement" = true)
    (hCs : cS.event ≠ "Sentinel") :
    (cS.hasReturnStatement = true → eS.hasReturnStatement = true →
      ∃ par' r', handleIfExit true ch n ⟨eS :: cS :: par :: rest, r⟩ =
          .ok ⟨par' :: rest, r'⟩ ∧ par'.metadata = par.metadata)
    ∧ (cS.hasReturnStatement = true → eS.hasReturnStatement = false →
      ∃ par' r', handleIfExit true ch n ⟨eS :: cS :: par :: rest, r⟩ =
          .ok ⟨par' :: rest, r'⟩ ∧
        par'.metadata =
          (if ch then max par.metadata (max cS.metadata eS.metadata)
           else par.metadata + max cS.metadata eS.metadata)
            - cS.metadata + eS.metadata ∧
        (ch = false → eS.metadata ≤ cS.metadata →
          par'.metadata = par.metadata + eS.metadata))
    ∧ (cS.hasReturnStatement = false → eS.hasReturnStatement = true →
      ∃ par' r', handleIfExit true ch n ⟨eS :: cS :: par :: rest, r⟩ =
          .ok ⟨par' :: rest, r'⟩ ∧
        par'.metadata =
          (if ch then max par.metadata (max cS.metadata eS.metadata)
           else par.metadata + max cS.metadata eS.metadata)
            - eS.metadata + cS.metadata ∧
        (ch = false → cS.metadata ≤ eS.metadata →
          par'.metadata = par.metadata + cS.metadata)) := by
  have hS : eS.event ≠ "Sentinel" := includes_ifst_ne_sentinel hTop
  refine ⟨?_, ?_, ?_⟩
  · intro hCr hEr
    simp only [handleIfExit, hTop, if_true, hS, if_false, ifExitCore, hCs,
      ite_false, ite_true, undoChangesIfThereIsReturnStatement, hEr, hCr]
    simp only [Bool.and_true, ite_true, apply_ite Scope.metadata, ite_self]
    exact ⟨_, _, rfl, rfl⟩
  · intro hCr hEr
    simp only [handleIfExit, hTop, if_true, hS, if_false, ifExitCore, hCs,
      ite_false, ite_true, undoChangesIfThereIsReturnStatement, hEr, hCr]
    simp only [Bool.and_false, Bool.false_eq_true, if_false, not_false_iff,
      ite_true, Bool.not_false, apply_ite Scope.metadata, ite_self]
    refine ⟨_, _, rfl, ?_, ?_⟩
    · simp
    · intro hch hle
      subst hch
      simp only [Bool.false_eq_true, if_false, ite_false]
      have h2 : max cS.metadata eS.metadata = cS.metadata := max_eq_left hle
      rw [h2]
      ring
  · intro hCr hEr
    simp only [handleIfExit, hTop, if_true, hS, if_false, ifExitCore, hCs,
      ite_false, ite_true, undoChangesIfThereIsReturnStatement, hEr, hCr]
    simp only [Bool.false_and, Bool.and_true, Bool.false_eq_true, if_false,
      not_false_iff, ite_true, Bool.not_false, apply_ite Scope.metadata,
      ite_self]
    refine ⟨_, _, rfl, ?_, ?_⟩
    · simp
    · intro hch hle
      subst hch
      simp only [Bool.false_eq_true, if_false, ite_false]
      have h2 : max cS.metadata eS.metadata = eS.metadata := max_eq_right hle
      rw [h2]
      ring

/-- Witness for the amended C3 at concrete frames: both branches return
(parent restored to 5); consequent-only return with counts 2 over 1
(contribution 1); alternate-only return with counts 2 over 1
(contribution 1). -/
theorem c3_witness :
    (∃ par' r', handleIfExit true false 7
        ⟨[⟨"IfStatement > BlockStatement", 2, none, true⟩,
          ⟨"IfStatement > BlockStatement", 1, none, true⟩,
          ⟨"Sentinel", 5, none, false⟩], 0⟩ = .ok ⟨par' :: [], r'⟩ ∧
      par'.metadata = 5)
    ∧ (∃ par' r', handleIfExit true false 7
        ⟨[⟨"IfStatement > BlockStatement", 1, none, false⟩,
          ⟨"IfStatement > BlockStatement", 2, none, true⟩,
          ⟨"Sentinel", 5, none, false⟩], 0⟩ = .ok ⟨par' :: [], r'⟩ ∧
      par'.metadata = 5 + 1)
    ∧ (∃ par' r', handleIfExit true false 7
        ⟨[⟨"IfStatement > BlockStatement", 2, none, true⟩,
          ⟨"IfStatement > BlockStatement", 1, none, false⟩,
          ⟨"Sentinel", 5, none, false⟩], 0⟩ = .ok ⟨par' :: [], r'⟩ ∧
      par'.metadata = 5 + 1) := by
  refine ⟨?_, ?_, ?_⟩
  · exact (c3_return_undo
      ⟨"IfStatement > BlockStatement", 2, none, true⟩
      ⟨"IfStatement > BlockStatement", 1, none, true⟩
      ⟨"Sentinel", 5, none, false⟩ [] 0 7 false (by decide) (by decide)).1
      rfl rfl
  · obtain ⟨par', r', heq, hm, himp⟩ := (c3_return_undo
      ⟨"IfStatement > BlockStatement", 1, none, false⟩
      ⟨"IfStatement > BlockStatement", 2, none, true⟩
      ⟨"Sentinel", 5, none, false⟩ [] 0 7 false (by decide) (by decide)).2.1
      rfl rfl
    exact ⟨par', r', heq, himp rfl (by decide)⟩
  · obtain ⟨par', r', heq, hm, himp⟩ := (c3_return_undo
      ⟨"IfStatement > BlockStatement", 2, none, true⟩
      ⟨"IfStatement > BlockStatement", 1, none, false⟩
      ⟨"Sentinel", 5, none, false⟩ [] 0 7 false (by decide) (by decide)).2.2
      rfl rfl
    exact ⟨par', r', heq, himp rfl (by decide)⟩

end CountScopeManager

namespace CountScopeManager

/-- Claim C4: on every try/catch exit the catch frame is popped, then the
try frame, and the parent metadata becomes the maximum of its pre-merge
value and the two branch counts; the reporter callback is invoked
unconditionally on every such exit.  By contrast (second conjunct), the
conditional-exit merge invokes the reporter exactly when the merged value
differs from the pre-merge parent value. -/
theorem c4_catch_merge_max_reports_always
    (cS tS par : Scope Int) (rest : List (Scope Int)) (r : Nat)
    (hC : includesSub cS.event "CatchClause" = true)
    (hT : includesSub tS.event "TryStatement" = true) :
    (handleCatchExit ⟨cS :: tS :: par :: rest, r⟩ =
      .ok ⟨⟨par.event, max par.metadata (max cS.metadata tS.metadata),
            par.lastViolatingNode, par.hasReturnStatement⟩ :: rest,
           r + 1⟩)
    ∧ (∀ (eS cS2 par2 : Scope Int) (rest2 : List (Scope Int)) (r2 : Nat)
        (ch : Bool) (n : Nat),
        includesSub eS.event "IfStatement" = true →
        cS2.event ≠ "Sentinel" →
        ∃ par', handleIfExit true ch n ⟨eS :: cS2 :: par2 :: rest2, r2⟩ =
          .ok ⟨par' :: rest2,
               if par2.metadata =
                   (if ch then max par2.metadata (max cS2.metadata eS.metadata)
                    else par2.metadata + max cS2.metadata eS.metadata)
               then r2 else r2 + 1⟩) := by
  have hCS : cS.event ≠ "Sentinel" := includes_catch_ne_sentinel hC
  have hTS : tS.event ≠ "Sentinel" := includes_try_ne_sentinel hT
  constructor
  · simp [handleCatchExit, hC, hCS, hT, hTS]
  · intro eS cS2 par2 rest2 r2 ch n hTop hCs2
    have hS : eS.event ≠ "Sentinel" := includes_ifst_ne_sentinel hTop
    simp only [handleIfExit, hTop, if_true, hS, if_false, ifExitCore, hCs2,
      ite_false, ite_true, decide_eq_true_eq]
    have hrep : (if par2.metadata -
          (if ch then max par2.metadata (max cS2.metadata eS.metadata)
           else par2.metadata + max cS2.metadata eS.metadata) ≠ 0
        then r2 + 1 else r2) =
        (if par2.metadata =
            (if ch then max par2.metadata (max cS2.metadata eS.metadata)
             else par2.metadata + max cS2.metadata eS.metadata)
         then r2 else r2 + 1) := by
      by_cases hch : par2.metadata =
          (if ch then max par2.metadata (max cS2.metadata eS.metadata)
           else par2.metadata + max cS2.metadata eS.metadata)
      · rw [if_pos hch, if_neg]
        exact fun hne => hne (sub_eq_zero.mpr hch)
      · rw [if_neg hch, if_pos (sub_ne_zero.mpr hch)]
    rw [hrep]
    exact ⟨_, rfl⟩

/-- Witness for C4 at concrete frames: try count 1, catch count 3, parent
count 0 merge to `max 0 (max 3 1) = 3` with the report counter bumped from
0 to 1; a conditional exit whose merge leaves the parent value unchanged
(chained, parent 5, branches 3 and 1) keeps the report counter at 0. -/
theorem c4_witness :
    (handleCatchExit ⟨[⟨"CatchClause", 3, none, false⟩,
        ⟨"TryStatement", 1, none, false⟩,
        ⟨"Sentinel", 0, none, false⟩], 0⟩ =
      .ok ⟨[⟨"Sentinel", max 0 (max 3 1), none, false⟩], 0 + 1⟩)
    ∧ (∃ par', handleIfExit true true 7
        ⟨[⟨"IfStatement > BlockStatement", 1, none, false⟩,
          ⟨"IfStatement > BlockStatement", 3, none, false⟩,
          ⟨"Sentinel", 5, none, false⟩], 0⟩ =
        .ok ⟨par' :: [], if (5 : Int) = max 5 (max 3 1) then 0 else 0 + 1⟩) := by
  have h := c4_catch_merge_max_reports_always
    ⟨"CatchClause", 3, none, false⟩ ⟨"TryStatement", 1, none, false⟩
    ⟨"Sentinel", 0, none, false⟩ [] 0 (by decide) (by decide)
  constructor
  · exact h.1
  · have h2 := h.2 ⟨"IfStatement > BlockStatement", 1, none, false⟩
      ⟨"IfStatement > BlockStatement", 3, none, false⟩
      ⟨"Sentinel", 5, none, false⟩ [] 0 true 7 (by decide) (by decide)
    simpa using h2

end CountScopeManager

namespace PresenceScopeManager

/-- Claim C5: the presence tracker's conditional-exit merge sets the
parent metadata to `parent OR (consequent AND alternate)` when an else
branch exists, and leaves it unchanged when none does. -/
theorem c5_presence_merge
    (eS cS par : Scope Bool) (rest : List (Scope Bool))
    (hTop : includesSub eS.event "IfStatement" = true)
    (hCs : cS.event ≠ "Sentinel") :
    (handleIfExit true (eS :: cS :: par :: rest) =
      .ok (⟨par.event, par.metadata || (cS.metadata && eS.metadata),
            par.lastViolatingNode, par.hasReturnStatement⟩ :: rest))
    ∧ (includesSub cS.event "IfStatement" = true →
      handleIfExit false (cS :: par :: rest) = .ok (par :: rest)) := by
  have hS : eS.event ≠ "Sentinel" := includes_ifst_ne_sentinel hTop
  constructor
  · simp only [handleIfExit, hTop, if_true, hS, if_false,
      handleIfExit.ifExitCore, hCs, ite_false, ite_true, mergedPresence,
      Option.isSome_some, Bool.and_true]
    congr 2
    cases hc : cS.metadata <;> simp
  · intro hTop2
    simp only [handleIfExit, hTop2, if_true, Bool.false_eq_true, if_false,
      handleIfExit.ifExitCore, hCs, ite_false, ite_true, mergedPresence,
      Option.isSome_none, Bool.and_false, Bool.false_eq_true, if_false,
      Bool.or_false]

/-- Witness for C5 at concrete frames: parent false, consequent true,
alternate true merges to `false || (true && true)`; without an else branch
the parent frame is returned unchanged. -/
theorem c5_witness :
    (handleIfExit true [⟨"IfStatement > BlockStatement", true, none, false⟩,
        ⟨"IfStatement > BlockStatement", true, none, false⟩,
        ⟨"Sentinel", false, none, false⟩] =
      .ok [⟨"Sentinel", false || (true && true), none, false⟩])
    ∧ (handleIfExit false [⟨"IfStatement > BlockStatement", true, none, false⟩,
        ⟨"Sentinel", false, none, false⟩] =
      .ok [⟨"Sentinel", false, none, false⟩]) := by
  have h := c5_presence_merge
    ⟨"IfStatement > BlockStatement", true, none, false⟩
    ⟨"IfStatement > BlockStatement", true, none, false⟩
    ⟨"Sentinel", false, none, false⟩ [] (by decide) (by decide)
  exact ⟨h.1, h.2 (by decide)⟩

end PresenceScopeManager

namespace CountScopeManager

/-- Claim C6, counterexample: a conditional-exit merge that finds an
unexpected label at the top of the stack (`FunctionDeclaration` instead of
an `IfStatement` label) does not raise an error: `_handleIfExit` returns
normally with the state unchanged, silently skipping the merge. -/
theorem c6_counterexample :
    handleIfExit true false 0
        ⟨[⟨"FunctionDeclaration", 0, none, false⟩,
          ⟨"Sentinel", 0, none, false⟩], 0⟩ =
      .ok ⟨[⟨"FunctionDeclaration", 0, none, false⟩,
            ⟨"Sentinel", 0, none, false⟩], 0⟩ := rfl

/-- Claim C6 as amended: popping the sentinel base frame (or an empty
stack) and top-of-stack label mismatches during the try/catch-exit merge
raise fatal errors aborting the traversal; but the conditional-exit merge,
on finding a top frame without an `IfStatement` label, silently skips the
merge and returns the state unchanged (by design: the rule pushed no frame
for that conditional). -/
theorem c6_invariant_errors
    (fr : Scope Int) (tS : Scope Int) (rest : List (Scope Int)) (r : Nat) :
    (fr.event = "Sentinel" →
      exitScope (fr :: rest) = .error "Sentinel is about to be popped")
    ∧ exitScope ([] : List (Scope Int)) =
        .error "undefined is about to be popped"
    ∧ (includesSub fr.event "CatchClause" = false →
      handleCatchExit ⟨fr :: rest, r⟩ =
        .error "Expected Catch to be on top of stack")
    ∧ (includesSub fr.event "CatchClause" = true →
      includesSub tS.event "TryStatement" = false →
      handleCatchExit ⟨fr :: tS :: rest, r⟩ =
        .error "Expected TryStatement to be on top of stack")
    ∧ (∀ (a c : Bool) (n : Nat), includesSub fr.event "IfStatement" = false →
      handleIfExit a c n ⟨fr :: rest, r⟩ = .ok ⟨fr :: rest, r⟩) := by
  refine ⟨?_, rfl, ?_, ?_, ?_⟩
  · intro h
    simp [exitScope, h]
  · intro h
    simp [handleCatchExit, h]
  · intro hc ht
    have hS : fr.event ≠ "Sentinel" := includes_catch_ne_sentinel hc
    simp [handleCatchExit, hc, hS, ht]
  · intro a c n h
    simp [handleIfExit, h]

/-- Witness for the amended C6 at concrete frames. -/
theorem c6_witness :
    (exitScope [⟨"Sentinel", (0 : Int), none, false⟩] =
      .error "Sentinel is about to be popped")
    ∧ exitScope ([] : List (Scope Int)) =
        .error "undefined is about to be popped"
    ∧ handleCatchExit ⟨[⟨"FunctionDeclaration", 0, none, false⟩], 0⟩ =
        .error "Expected Catch to be on top of stack"
    ∧ handleCatchExit ⟨[⟨"CatchClause", 0, none, false⟩,
          ⟨"FunctionDeclaration", 0, none, false⟩], 0⟩ =
        .error "Expected TryStatement to be on top of stack"
    ∧ handleIfExit true false 3
        ⟨[⟨"FunctionDeclaration", 0, none, false⟩], 0⟩ =
      .ok ⟨[⟨"FunctionDeclaration", 0, none, false⟩], 0⟩ := by
  have h1 := c6_invariant_errors ⟨"Sentinel", (0 : Int), none, false⟩
    ⟨"FunctionDeclaration", 0, none, false⟩ [] 0
  have h2 := c6_invariant_errors ⟨"FunctionDeclaration", (0 : Int), none, false⟩
    ⟨"FunctionDeclaration", 0, none, false⟩ [] 0
  have h3 := c6_invariant_errors ⟨"CatchClause", (0 : Int), none, false⟩
    ⟨"FunctionDeclaration", 0, none, false⟩ [] 0
  exact ⟨h1.1 rfl, h1.2.1, h2.2.2.1 (by decide),
    h3.2.2.2.1 (by decide) (by decide), h2.2.2.2.2 true false 3 (by decide)⟩

end CountScopeManager

namespace CountScopeManager

theorem run_append_ok {xs : List CEvent} {s s1 : CState} (ys : List CEvent)
    (h : run s xs = .ok s1) : run s (xs ++ ys) = run s1 ys := by
  induction xs generalizing s with
  | nil =>
    simp only [run] at h
    cases h
    simp
  | cons e rest ih =>
    simp only [run] at h ⊢
    cases hacc : account s e with
    | error msg => rw [hacc] at h; exact absurd h (by simp)
    | ok s' =>
      rw [hacc] at h
      exact ih h

theorem run_singleton (s : CState) (e : CEvent) :
    run s [e] = account s e := by
  simp only [run]
  cases account s e <;> rfl

theorem handleIfExit_shape_alt (eFr cFr par : Scope Int)
    (rest : List (Scope Int)) (r n : Nat) (ch : Bool)
    (hTop : includesSub eFr.event "IfStatement" = true)
    (hCs : cFr.event ≠ "Sentinel") :
    ∃ par' r', handleIfExit true ch n ⟨eFr :: cFr :: par :: rest, r⟩ =
        .ok ⟨par' :: rest, r'⟩ ∧ par'.event = par.event := by
  have hS : eFr.event ≠ "Sentinel" := includes_ifst_ne_sentinel hTop
  simp only [handleIfExit, hTop, if_true, hS, if_false, ifExitCore, hCs,
    ite_false, ite_true]
  refine ⟨_, _, rfl, ?_⟩
  simp [undoChangesIfThereIsReturnStatement, apply_ite Scope.event, ite_self]

theorem handleIfExit_shape_noAlt (cFr par : Scope Int)
    (rest : List (Scope Int)) (r n : Nat) (ch : Bool)
    (hTop : includesSub cFr.event "IfStatement" = true) :
    ∃ par' r', handleIfExit false ch n ⟨cFr :: par :: rest, r⟩ =
        .ok ⟨par' :: rest, r'⟩ ∧ par'.event = par.event := by
  have hS : cFr.event ≠ "Sentinel" := includes_ifst_ne_sentinel hTop
  simp only [handleIfExit, hTop, if_true, Bool.false_eq_true, if_false,
    ifExitCore, hS, ite_false, ite_true]
  refine ⟨_, _, rfl, ?_⟩
  simp [undoChangesIfThereIsReturnStatement, apply_ite Scope.event, ite_self]

theorem handleCatchExit_shape (cFr tFr par : Scope Int)
    (rest : List (Scope Int)) (r : Nat)
    (hC : includesSub cFr.event "CatchClause" = true)
    (hT : includesSub tFr.event "TryStatement" = true) :
    ∃ par' r', handleCatchExit ⟨cFr :: tFr :: par :: rest, r⟩ =
        .ok ⟨par' :: rest, r'⟩ ∧ par'.event = par.event := by
  simp [handleCatchExit, hC, includes_catch_ne_sentinel hC, hT,
    includes_try_ne_sentinel hT]

theorem fnLabel_ne_sentinel (l : FnLabel) : l.eventString ≠ "Sentinel" := by
  cases l <;> decide

theorem ne_nil_of_map_event_eq {st1 st : List (Scope Int)}
    (h : st1.map Scope.event = st.map Scope.event) (hne : st ≠ []) :
    st1 ≠ [] := by
  intro h0
  rw [h0] at h
  exact hne (List.map_eq_nil_iff.mp h.symm)

theorem destruct_map_one {st2 : List (Scope Int)} {a : String}
    {tl : List String} (h : st2.map Scope.event = a :: tl) :
    ∃ x rest, st2 = x :: rest ∧ x.event = a ∧ rest.map Scope.event = tl := by
  cases st2 with
  | nil => exact absurd h (by simp)
  | cons x rest =>
    simp only [List.map_cons, List.cons.injEq] at h
    exact ⟨x, rest, rfl, h.1, h.2⟩

theorem destruct_map_two {st2 : List (Scope Int)} {a b : String}
    {tl : List String} (h : st2.map Scope.event = a :: b :: tl) :
    ∃ x y rest, st2 = x :: y :: rest ∧ x.event = a ∧ y.event = b ∧
      rest.map Scope.event = tl := by
  obtain ⟨x, rest1, rfl, hx, hrest⟩ := destruct_map_one h
  obtain ⟨y, rest, rfl, hy, htl⟩ := destruct_map_one hrest
  exact ⟨x, y, rest, rfl, hx, hy, htl⟩

/-- Label of the net frame an alternate part leaves on the stack until
the enclosing exit pops it. -/
def altLabels : AltPart → List String
  | .noAlt => []
  | .block _ => ["IfStatement > BlockStatement"]
  | .elif _ _ _ => ["IfStatement > IfStatement"]

mutual

theorem progEvents_run : ∀ (pr : Prog) (st : List (Scope Int)) (r : Nat),
    st ≠ [] →
    ∃ st' r', run ⟨st, r⟩ (progEvents pr) = .ok ⟨st', r'⟩ ∧
      st'.map Scope.event = st.map Scope.event
  | .skip, st, r, _ => ⟨st, r, rfl, rfl⟩
  | .seq a b, st, r, hne => by
    obtain ⟨st1, r1, h1, m1⟩ := progEvents_run a st r hne
    obtain ⟨st2, r2, h2, m2⟩ := progEvents_run b st1 r1
      (ne_nil_of_map_event_eq m1 hne)
    refine ⟨st2, r2, ?_, m2.trans m1⟩
    rw [progEvents, run_append_ok _ h1]
    exact h2
  | .call n, st, r, hne => by
    match st, hne with
    | top :: rest, _ => exact ⟨_, r, rfl, rfl⟩
  | .ret, st, r, hne => by
    match st, hne with
    | top :: rest, _ => exact ⟨_, r, rfl, rfl⟩
  | .func l body, st, r, hne => by
    obtain ⟨st1, r1, h1, m1⟩ := progEvents_run body
      (createScopeObject l.eventString :: st) r (by simp)
    have hm : st1.map Scope.event = l.eventString :: st.map Scope.event := by
      simpa [createScopeObject] using m1
    obtain ⟨top, rest1, rfl, hte, hre⟩ := destruct_map_one hm
    refine ⟨rest1, r1, ?_, hre⟩
    simp only [progEvents, run, account]
    rw [run_append_ok _ h1, run_singleton]
    simp [account, hte, fnLabel_ne_sentinel l]
  | .ifStmt n cons alt, st, r, hne => by
    obtain ⟨st1, r1, h1, m1⟩ := progEvents_run cons
      (createScopeObject "IfStatement > BlockStatement" :: st) r (by simp)
    obtain ⟨st2, r2, h2, m2⟩ := altEvents_run alt st1 r1
      (ne_nil_of_map_event_eq m1 (by simp))
    have hm2 : st2.map Scope.event = altLabels alt ++
        "IfStatement > BlockStatement" :: st.map Scope.event := by
      rw [m2, m1]
      simp [createScopeObject]
    have hstep : run ⟨st, r⟩ (progEvents (.ifStmt n cons alt)) =
        handleIfExit alt.isPresent false n ⟨st2, r2⟩ := by
      simp only [progEvents, run, account, List.append_assoc]
      rw [run_append_ok _ h1, run_append_ok _ h2, run_singleton]
      rfl
    cases alt with
    | noAlt =>
      simp only [altLabels, List.nil_append] at hm2
      obtain ⟨cFr, rest2, rfl, hce, hre⟩ := destruct_map_one hm2
      obtain ⟨par, rest3, rfl⟩ :=
        List.exists_cons_of_ne_nil (ne_nil_of_map_event_eq hre hne)
      obtain ⟨par', r', hex, hev⟩ := handleIfExit_shape_noAlt cFr par
        rest3 r2 n false (by rw [hce]; decide)
      refine ⟨par' :: rest3, r', ?_, ?_⟩
      · rw [hstep]
        exact hex
      · simpa [hev] using hre
    | block body =>
      simp only [altLabels, List.cons_append, List.nil_append] at hm2
      obtain ⟨eFr, cFr, rest2, rfl, hee, hce, hre⟩ := destruct_map_two hm2
      obtain ⟨par, rest3, rfl⟩ :=
        List.exists_cons_of_ne_nil (ne_nil_of_map_event_eq hre hne)
      obtain ⟨par', r', hex, hev⟩ := handleIfExit_shape_alt eFr cFr par
        rest3 r2 n false (by rw [hee]; decide)
        (by rw [hce]; decide)
      refine ⟨par' :: rest3, r', ?_, ?_⟩
      · rw [hstep]
        exact hex
      · simpa [hev] using hre
    | elif n2 cons2 alt2 =>
      simp only [altLabels, List.cons_append, List.nil_append] at hm2
      obtain ⟨eFr, cFr, rest2, rfl, hee, hce, hre⟩ := destruct_map_two hm2
      obtain ⟨par, rest3, rfl⟩ :=
        List.exists_cons_of_ne_nil (ne_nil_of_map_event_eq hre hne)
      obtain ⟨par', r', hex, hev⟩ := handleIfExit_shape_alt eFr cFr par
        rest3 r2 n false (by rw [hee]; decide)
        (by rw [hce]; decide)
      refine ⟨par' :: rest3, r', ?_, ?_⟩
      · rw [hstep]
        exact hex
      · simpa [hev] using hre
  | .tryCatch t c, st, r, hne => by
    obtain ⟨st1, r1, h1, m1⟩ := progEvents_run t
      (createScopeObject "TryStatement" :: st) r (by simp)
    have hm1 : st1.map Scope.event = "TryStatement" :: st.map Scope.event := by
      simpa [createScopeObject] using m1
    obtain ⟨st2, r2, h2, m2⟩ := progEvents_run c
      (createScopeObject "CatchClause" :: st1) r1 (by simp)
    have hm2 : st2.map Scope.event =
        "CatchClause" :: "TryStatement" :: st.map Scope.event := by
      rw [m2]
      simp [createScopeObject, hm1]
    have hstep : run ⟨st, r⟩ (progEvents (.tryCatch t c)) =
        handleCatchExit ⟨st2, r2⟩ := by
      simp only [progEvents, run, account]
      rw [run_append_ok _ h1]
      simp only [run, account]
      rw [run_append_ok _ h2, run_singleton]
      rfl
    obtain ⟨cFr, tFr, rest2, rfl, hce, hte, hre⟩ := destruct_map_two hm2
    obtain ⟨par, rest3, rfl⟩ :=
      List.exists_cons_of_ne_nil (ne_nil_of_map_event_eq hre hne)
    obtain ⟨par', r', hex, hev⟩ := handleCatchExit_shape cFr tFr par
      rest3 r2 (by rw [hce]; decide) (by rw [hte]; decide)
    refine ⟨par' :: rest3, r', ?_, ?_⟩
    · rw [hstep]
      exact hex
    · simpa [hev] using hre

theorem altEvents_run : ∀ (a : AltPart) (st : List (Scope Int)) (r : Nat),
    st ≠ [] →
    ∃ st' r', run ⟨st, r⟩ (altEvents a) = .ok ⟨st', r'⟩ ∧
      st'.map Scope.event = altLabels a ++ st.map Scope.event
  | .noAlt, st, r, _ => ⟨st, r, rfl, rfl⟩
  | .block body, st, r, hne => by
    obtain ⟨st1, r1, h1, m1⟩ := progEvents_run body
      (createScopeObject "IfStatement > BlockStatement" :: st) r (by simp)
    refine ⟨st1, r1, ?_, ?_⟩
    · simp only [altEvents, run, account]
      exact h1
    · rw [m1]
      simp [altLabels, createScopeObject]
  | .elif n cons alt, st, r, hne => by
    obtain ⟨st1, r1, h1, m1⟩ := progEvents_run cons
      (createScopeObject "IfStatement > BlockStatement" ::
        createScopeObject "IfStatement > IfStatement" :: st) r (by simp)
    obtain ⟨st2, r2, h2, m2⟩ := altEvents_run alt st1 r1
      (ne_nil_of_map_event_eq m1 (by simp))
    have hm2 : st2.map Scope.event = altLabels alt ++
        "IfStatement > BlockStatement" :: "IfStatement > IfStatement" ::
          st.map Scope.event := by
      rw [m2, m1]
      simp [createScopeObject]
    have hstep : run ⟨st, r⟩ (altEvents (.elif n cons alt)) =
        handleIfExit alt.isPresent true n ⟨st2, r2⟩ := by
      simp only [altEvents, run, account, List.append_assoc]
      rw [run_append_ok _ h1, run_append_ok _ h2, run_singleton]
      rfl
    cases alt with
    | noAlt =>
      simp only [altLabels, List.nil_append] at hm2
      obtain ⟨cFr, par, rest2, rfl, hce, hpe, hre⟩ := destruct_map_two hm2
      obtain ⟨par', r', hex, hev⟩ := handleIfExit_shape_noAlt cFr par
        rest2 r2 n true (by rw [hce]; decide)
      refine ⟨par' :: rest2, r', ?_, ?_⟩
      · rw [hstep]
        exact hex
      · simp only [List.map_cons, hev, hpe, altLabels, List.cons_append,
          List.nil_append, hre]
    | block body =>
      simp only [altLabels, List.cons_append, List.nil_append] at hm2
      obtain ⟨eFr, cFr, rest2, rfl, hee, hce, hre⟩ := destruct_map_two hm2
      obtain ⟨par, rest3, rfl, hpe, hre3⟩ := destruct_map_one hre
      obtain ⟨par', r', hex, hev⟩ := handleIfExit_shape_alt eFr cFr par
        rest3 r2 n true (by rw [hee]; decide) (by rw [hce]; decide)
      refine ⟨par' :: rest3, r', ?_, ?_⟩
      · rw [hstep]
        exact hex
      · simp only [List.map_cons, hev, hpe, altLabels, List.cons_append,
          List.nil_append, hre3]
    | elif n3 cons3 alt3 =>
      simp only [altLabels, List.cons_append, List.nil_append] at hm2
      obtain ⟨eFr, cFr, rest2, rfl, hee, hce, hre⟩ := destruct_map_two hm2
      obtain ⟨par, rest3, rfl, hpe, hre3⟩ := destruct_map_one hre
      obtain ⟨par', r', hex, hev⟩ := handleIfExit_shape_alt eFr cFr par
        rest3 r2 n true (by rw [hee]; decide) (by rw [hce]; decide)
      refine ⟨par' :: rest3, r', ?_, ?_⟩
      · rw [hstep]
        exact hex
      · simp only [List.map_cons, hev, hpe, altLabels, List.cons_append,
          List.nil_append, hre3]

end

/-- Claim C7: feeding the counting tracker the complete, balanced traversal
event sequence of any well-formed program region (functions, conditionals
with optional else or else-if chains, try/catch, calls and returns, wired
as the rule handlers wire them) succeeds and leaves the frame stack at
depth 1, holding only the sentinel frame. -/
theorem c7_wellformed_pass_depth_one (pr : Prog) :
    ∃ fr r', run ⟨[sentinelScope], 0⟩ (progEvents pr) = .ok ⟨[fr], r'⟩ ∧
      fr.event = "Sentinel" := by
  obtain ⟨st', r', h, m⟩ := progEvents_run pr [sentinelScope] 0 (by simp)
  cases st' with
  | nil => simp at m
  | cons fr tl =>
    cases tl with
    | nil =>
      simp only [List.map_cons, List.map_nil, sentinelScope,
        List.cons.injEq] at m
      exact ⟨fr, r', h, m.1⟩
    | cons b tl2 => simp [sentinelScope] at m

end CountScopeManager

namespace SimpleResponseClassifier

/-- Claim C8, counterexample: an identifier whose binding resolves to a
call expression classifies as uncertain even though it is none of the four
categories the claim lists (call, member access, spread, unresolvable
identifier) — the claimed "exactly" fails. -/
theorem c8_counterexample :
    (classify (.identifierRes .callExpr)).certain = false ∧
      claimedUncertain (.identifierRes .callExpr) = false :=
  ⟨rfl, rfl⟩

/-- Claim C8 as amended: `classify` returns `certain = false` exactly for
call expressions, member accesses, spread elements, and identifiers that
fail to resolve or whose resolved binding value itself classifies as
uncertain; and it returns `{certain: true, result: true}` for every
literal, template expression, and binary expression with a literal or
template operand (the code's notion of a string concatenation). -/
theorem c8_classify_uncertain_set (nd : JSNode) :
    ((classify nd).certain = false ↔ uncertainResolved nd = true)
    ∧ (isString nd = true → classify nd = ⟨true, true⟩) := by
  induction nd with
  | callExpr => exact ⟨by decide, by intro h; exact absurd h (by decide)⟩
  | identifierRes v ih =>
    refine ⟨?_, ?_⟩
    · simpa only [classify, uncertainResolved] using ih.1
    · intro h
      exact absurd h (by simp [isString, isLiteralType, isTemplateType])
  | identifierUnres => exact ⟨by decide, by intro h; exact absurd h (by decide)⟩
  | memberExpr => exact ⟨by decide, by intro h; exact absurd h (by decide)⟩
  | spreadElem => exact ⟨by decide, by intro h; exact absurd h (by decide)⟩
  | newExpr calleeName =>
    refine ⟨?_, ?_⟩
    · simp only [classify, uncertainResolved]
      by_cases h : calleeName = "SimpleResponse" <;> simp [h]
    · intro h
      exact absurd h (by simp [isString, isLiteralType, isTemplateType])
  | literal => exact ⟨by decide, by decide⟩
  | binaryExpr l r ihl ihr =>
    refine ⟨?_, ?_⟩
    · simp [classify, uncertainResolved]
    · intro h
      simp [classify, h]
  | templateLiteral => exact ⟨by decide, by decide⟩
  | objectExpr => exact ⟨by decide, by intro h; exact absurd h (by decide)⟩

/-- Witness for the amended C8: a concatenation of a literal with a
non-string operand classifies as a certain simple response. -/
theorem c8_witness : classify (JSNode.binaryExpr .literal .objectExpr) =
    ⟨true, true⟩ :=
  (c8_classify_uncertain_set (.binaryExpr .literal .objectExpr)).2 rfl

end SimpleResponseClassifier

namespace Classifier

/-- Claim C9: `isNodeIntentHandler` recognizes only inline handler
definitions.  Any call whose last argument is a string literal answers
false (first conjunct), and any two-argument call whose second argument is
a plain identifier answers false even when the receiver resolves to a
dialogflow/actionssdk app (second conjunct, quantified over every
resolution outcome and property name carried by the node). -/
theorem c9_intent_handler_rejects_noninline (nd : IntentCallNode) :
    (nd.argTypes.getLast? = some NType.Literal →
      isNodeIntentHandler (some nd) = .ok false)
    ∧ (nd.calleeObjectType = NType.Identifier →
       nd.argTypes.length = 2 →
       nd.argTypes.get? 1 = some NType.Identifier →
       isNodeIntentHandler (some nd) = .ok false) := by
  constructor
  · intro hlast
    by_cases h1 : nd.type = NType.CallExpression
    · by_cases h2 : nd.calleeType = NType.MemberExpression
      · simp [isNodeIntentHandler, h1, h2, hlast]
      · simp [isNodeIntentHandler, h2]
    · simp [isNodeIntentHandler, h1]
  · intro hobj hlen hsec
    by_cases h1 : nd.type = NType.CallExpression
    · by_cases h2 : nd.calleeType = NType.MemberExpression
      · have hlast : nd.argTypes.getLast? = some NType.Identifier := by
          rw [List.getLast?_eq_getElem?, hlen]
          simpa [← List.get?_eq_getElem?] using hsec
        simp only [isNodeIntentHandler, h1, h2, hobj, hlast, hlen, hsec]
        simp
      · simp [isNodeIntentHandler, h2]
    · simp [isNodeIntentHandler, h1]

/-- Witness for C9: `app.intent("a", "func")` (literal last argument) and
`app.intent("a", func)` (identifier second argument) are both rejected,
with the receiver resolving to a dialogflow app in both cases. -/
theorem c9_witness :
    isNodeIntentHandler (some ⟨NType.CallExpression, NType.MemberExpression,
      NType.Identifier, some ⟨NType.CallExpression, "dialogflow"⟩, "intent",
      [NType.Literal, NType.Literal]⟩) = .ok false
    ∧ isNodeIntentHandler (some ⟨NType.CallExpression, NType.MemberExpression,
      NType.Identifier, some ⟨NType.CallExpression, "dialogflow"⟩, "intent",
      [NType.Literal, NType.Identifier]⟩) = .ok false := by
  constructor
  · exact (c9_intent_handler_rejects_noninline _).1 rfl
  · exact (c9_intent_handler_rejects_noninline _).2 rfl rfl rfl

/-- Claim C10: whenever the examined call's callee is a member expression
whose receiver object is not a plain identifier and the call's last
argument is not a literal, `isNodeIntentHandler` raises an error (the
thrown `Expected Identifier` from `findVariableNodeValue`) instead of
returning false. -/
theorem c10_member_receiver_nonidentifier_throws (nd : IntentCallNode)
    (h1 : nd.type = NType.CallExpression)
    (h2 : nd.calleeType = NType.MemberExpression)
    (h3 : nd.calleeObjectType ≠ NType.Identifier)
    (h4 : ¬ nd.argTypes.getLast? = some NType.Literal) :
    isNodeIntentHandler (some nd) =
      .error "Expected Identifier, but got another node type" := by
  have hmatch : (match nd.argTypes.getLast? with
      | some t => t == NType.Literal
      | none => false) = false := by
    cases hl : nd.argTypes.getLast? with
    | none => rfl
    | some t =>
      have : t ≠ NType.Literal := fun h => h4 (by rw [hl, h])
      simpa using this
  simp [isNodeIntentHandler, h1, h2, h3, hmatch]

/-- Witness for C10: `foo().bar(cb)` embedded as a call over a
call-expression receiver with no literal last argument throws. -/
theorem c10_witness :
    isNodeIntentHandler (some ⟨NType.CallExpression, NType.MemberExpression,
      NType.CallExpression, none, "bar", []⟩) =
      .error "Expected Identifier, but got another node type" :=
  c10_member_receiver_nonidentifier_throws _ rfl rfl (by decide) (by decide)

end Classifier
